import Mathlib

/-!
Verification of the pinecone-search retrieval service.

This file shallowly embeds the Python source of the repository:
  - `src/app/utils/common.py` (`sanitize_metadata`, `collect_values`, `is_nonempty`)
  - `src/app/utils/constants.py` (`OBJECT_TYPE`)
  - `src/app/api/ingest_routes.py` (`ingest_document`, the batch consumer `batch_upsert`)
  - `src/app/api/search_routes.py` (`search_documents`)
  - `src/app/services/pinecone_service.py` (`PineconeService.upsert`)
  - `src/app/services/cache_service.py` (`CacheService.__init__/get/set`)

Python values flowing through metadata are modelled by the inductive type
`PyVal` (numbers are modelled by `Int`; no claim performs arithmetic on
floats).  Python dicts are modelled as association lists in insertion order
with `pyUpdate` mirroring `dict.update` (existing keys keep their position
and get the new value, fresh keys are appended).  External collaborators
(embedding provider, vector index, cache client) are passed in as function
or `Except` parameters so that their success and failure cases can be
analysed.
-/

/-- Model of a Python value as it appears in metadata records: `vnone` is
`None`, `venum` is an enum member carrying its underlying string value
(the enums in this code base are `StrEnum`s), `vlist` a list and `vobj` a
dict in insertion order. -/
inductive PyVal : Type where
  | vnone : PyVal
  | vbool : Bool → PyVal
  | vint : Int → PyVal
  | vstr : String → PyVal
  | venum : String → PyVal
  | vlist : List PyVal → PyVal
  | vobj : List (String × PyVal) → PyVal

/-- Python truthiness of a `PyVal`: `None` and empty strings, lists and
dicts are falsy, `0` is falsy, everything else is truthy. -/
def pyTruthy : PyVal → Bool
  | .vnone => false
  | .vbool b => b
  | .vint n => n != 0
  | .vstr s => s != ""
  | .venum s => s != ""
  | .vlist xs => xs.length != 0
  | .vobj kvs => kvs.length != 0

/-- Python `s.strip()` (whitespace strip), implemented on the character
list so that it evaluates by plain kernel reduction. -/
def pyStrip (s : String) : String :=
  String.mk (((s.data.dropWhile Char.isWhitespace).reverse.dropWhile
    Char.isWhitespace).reverse)

/-- Embedding of `is_nonempty` from `src/app/utils/common.py`: `None`,
blank strings and empty lists/dicts are not meaningful; everything else
is. -/
def is_nonempty : PyVal → Bool
  | .vnone => false
  | .vstr s => pyStrip s != ""
  | .vlist xs => xs.length != 0
  | .vobj kvs => kvs.length != 0
  | _ => true

mutual
/-- Python `str()` on a `PyVal`.  Scalars are rendered exactly as Python
renders them (`str(None) = "None"`, booleans capitalised, `StrEnum`
members render as their value); the rendering of composites approximates
`repr` without quoting — no claim depends on composite rendering. -/
def pyStr : PyVal → String
  | .vnone => "None"
  | .vbool b => if b then "True" else "False"
  | .vint n => toString n
  | .vstr s => s
  | .venum s => s
  | .vlist xs => "[" ++ pyStrList xs ++ "]"
  | .vobj kvs => "\x7b" ++ pyStrObj kvs ++ "\x7d"

/-- Comma-separated rendering of the elements of a Python list. -/
def pyStrList : List PyVal → String
  | [] => ""
  | [x] => pyStr x
  | x :: rest => pyStr x ++ ", " ++ pyStrList rest

/-- Comma-separated rendering of the entries of a Python dict. -/
def pyStrObj : List (String × PyVal) → String
  | [] => ""
  | [(k, v)] => k ++ ": " ++ pyStr v
  | (k, v) :: rest => k ++ ": " ++ pyStr v ++ ", " ++ pyStrObj rest
end

/-- Model of Python `d.get(k, None)` on a dict: the value of the first
entry with key `k`, or `None` when the key is absent. -/
def dictGet (d : List (String × PyVal)) (k : String) : PyVal :=
  match d.find? (fun kv => kv.1 == k) with
  | some kv => kv.2
  | none => PyVal.vnone

/-- Whether a dict (association list) has an entry with key `k`. -/
def hasKey (d : List (String × PyVal)) (k : String) : Bool :=
  d.any (fun kv => kv.1 == k)

/-- Model of Python `d[k] = v`: if the key exists its entry is updated in
place, otherwise the pair is appended. -/
def pySetKey (d : List (String × PyVal)) (k : String) (v : PyVal) :
    List (String × PyVal) :=
  if hasKey d k then
    d.map (fun kv => if kv.1 = k then (k, v) else kv)
  else
    d ++ [(k, v)]

/-- Model of Python `d.update(add)`: the entries of `add` are written into
`d` left to right. -/
def pyUpdate (d : List (String × PyVal)) :
    List (String × PyVal) → List (String × PyVal)
  | [] => d
  | (k, v) :: rest => pyUpdate (pySetKey d k v) rest

mutual
/-- Embedding of `sanitize_metadata` from `src/app/utils/common.py`
(the `BaseModel` branch coincides with the dict branch after `.dict()`,
and the inner `isinstance(data, (dict, list))` test in the `else` arm of
the source is unreachable, so neither appears here).  `None` leaves are
dropped, dict and list nodes recurse with extended keys, and any other
leaf is kept under the accumulated key. -/
def sanitize_metadata (data : PyVal) (parentKey sep : String) :
    List (String × PyVal) :=
  match data with
  | .vnone => []
  | .vobj kvs => sanitizeObj kvs parentKey sep []
  | .vlist xs => sanitizeList xs 0 parentKey sep []
  | v => [(parentKey, v)]

/-- Loop of the dict branch of `sanitize_metadata`: for each entry the key
is extended (`f"{parent_key}{sep}{key}" if parent_key else key`) and the
recursive result is merged into the accumulator with `dict.update`. -/
def sanitizeObj (kvs : List (String × PyVal)) (parentKey sep : String)
    (items : List (String × PyVal)) : List (String × PyVal) :=
  match kvs with
  | [] => items
  | (k, v) :: rest =>
    let newKey := if parentKey ≠ "" then parentKey ++ sep ++ k else k
    sanitizeObj rest parentKey sep
      (pyUpdate items (sanitize_metadata v newKey sep))

/-- Loop of the list branch of `sanitize_metadata`: element `i` recurses
under the key `f"{parent_key}{sep}{i}"`. -/
def sanitizeList (xs : List PyVal) (i : Nat) (parentKey sep : String)
    (items : List (String × PyVal)) : List (String × PyVal) :=
  match xs with
  | [] => items
  | v :: rest =>
    sanitizeList rest (i + 1) parentKey sep
      (pyUpdate items (sanitize_metadata v (parentKey ++ sep ++ toString i) sep))
end

/-- Whether a value may appear in sanitized metadata: not `None` and not a
nested dict or list. -/
def isCleanVal : PyVal → Bool
  | .vnone => false
  | .vlist _ => false
  | .vobj _ => false
  | _ => true

/-- Path segment inside a nested metadata value: a dict key or a list
index. -/
inductive Seg : Type where
  | key : String → Seg
  | idx : Nat → Seg

/-- Key extension rule of `sanitize_metadata`: a dict key is joined with
the separator unless the parent key is empty; a list index is always
joined with the separator. -/
def extendKey (parentKey sep : String) : Seg → String
  | .key k => if parentKey ≠ "" then parentKey ++ sep ++ k else k
  | .idx i => parentKey ++ sep ++ toString i

/-- Join of a whole ancestor path onto a parent key, in traversal order. -/
def joinPath (parentKey sep : String) : List Seg → String
  | [] => parentKey
  | s :: rest => joinPath (extendKey parentKey sep s) sep rest

/-- Proposition that following `path` from `v` reaches the value `w`. -/
def leadsTo : PyVal → List Seg → PyVal → Prop
  | v, [], w => v = w
  | .vobj kvs, .key k :: rest, w => ∃ v', (k, v') ∈ kvs ∧ leadsTo v' rest w
  | .vlist xs, .idx i :: rest, w => ∃ v', xs.get? i = some v' ∧ leadsTo v' rest w
  | _, _ :: _, _ => False

/-- Python `s.isdigit()`: non-empty and every character a digit. -/
def isPyDigit (s : String) : Bool :=
  s.data.length != 0 && s.data.all Char.isDigit

/-- Embedding of `collect_values` from `src/app/utils/common.py`.  The
source initialises a local `value_parts`, appends to it only in the enum
and primitive branches, and in the dict/list (and `BaseModel`) branches
calls itself recursively while DISCARDING the recursive results, so those
branches return the still-empty local list; in the primitive branch, a
pure digit string longer than 4 characters hits a bare `return`, which
returns Python `None` (modelled as `none`) instead of a list. -/
def collect_values : PyVal → Option (List String)
  | .vnone => some []
  | .venum s => if is_nonempty (.vstr s) then some [s] else some []
  | .vobj _ => some []
  | .vlist _ => some []
  | v =>
    if is_nonempty v then
      let s := pyStrip (pyStr v)
      if isPyDigit s && decide (s.data.length > 4) then none else some [s]
    else some []

mutual
/-- Collector that the spec describes for `collect_values`: recursively
walk the record and return every non-empty scalar leaf in traversal
order, resolving enums to their underlying value and excluding pure
numeric strings longer than 4 digits.  This definition follows the spec
sentence, for comparison against the source embedding `collect_values`. -/
def collect_values_spec : PyVal → List String
  | .vnone => []
  | .venum s => if is_nonempty (.vstr s) then [s] else []
  | .vobj kvs => collectObjSpec kvs
  | .vlist xs => collectListSpec xs
  | v =>
    if is_nonempty v then
      let s := pyStrip (pyStr v)
      if isPyDigit s && decide (s.data.length > 4) then [] else [s]
    else []

/-- Values collected from the entries of a dict, in order. -/
def collectObjSpec : List (String × PyVal) → List String
  | [] => []
  | (_, v) :: rest => collect_values_spec v ++ collectObjSpec rest

/-- Values collected from the elements of a list, in order. -/
def collectListSpec : List PyVal → List String
  | [] => []
  | v :: rest => collect_values_spec v ++ collectListSpec rest
end

/-- Embedding of `OBJECT_TYPE` from `src/app/utils/constants.py`. -/
inductive ObjectType : Type where
  | products : ObjectType
  | blogs : ObjectType
  | stores : ObjectType
  | all : ObjectType
  deriving DecidableEq

/-- String value of an `OBJECT_TYPE` member (it is a `StrEnum`, so this is
also how it renders in f-strings and compares to strings). -/
def ObjectType.str : ObjectType → String
  | .products => "products"
  | .blogs => "blogs"
  | .stores => "stores"
  | .all => "all"

/-- Python `x or default` on an optional string: the string itself when it
is truthy (present and non-empty), the default otherwise. -/
def pyOrStr (x : Option String) (d : String) : String :=
  match x with
  | some s => if s = "" then d else s
  | none => d

/-- Python f-string rendering of an `Optional[str]`: `None` renders as the
string `"None"`. -/
def pyStrOptStr : Option String → String
  | some s => s
  | none => "None"

/-- Namespace computed on the ingest path (`src/app/api/ingest_routes.py`,
line 41 and line 65): the type literal, except that products use
`f"{request.location_id or 'orphan'}-{request.type}"`. -/
def ingest_namespace (t : ObjectType) (locationId : Option String) : String :=
  if t ≠ ObjectType.products then t.str
  else pyOrStr locationId "orphan" ++ "-" ++ t.str

/-- Namespace computed on the search path (`src/app/api/search_routes.py`,
line 66): the type literal, except that products use
`f"{request.location_id}-{namespace_str}"` — note there is no
`or 'orphan'` here, so an absent location renders as `"None"`. -/
def search_namespace (ns : ObjectType) (locationId : Option String) : String :=
  let nsStr := ns.str
  if nsStr = "products" then pyStrOptStr locationId ++ "-" ++ nsStr
  else nsStr

/-- Python `or` on two values: the first when it is truthy, otherwise the
second. -/
def pyOr (a b : PyVal) : PyVal :=
  if pyTruthy a then a else b

/-- Embedding of the vector id expression of `ingest_document` (line 37)
and `process_metadata` (line 85):
`str(metadata.get("id",None) or metadata.get("databaseId",None) or metadata.get("zip",None))`. -/
def resolve_vector_id (m : List (String × PyVal)) : String :=
  pyStr (pyOr (dictGet m "id") (pyOr (dictGet m "databaseId") (dictGet m "zip")))

/-- Test for the `None` value. -/
def isNoneVal : PyVal → Bool
  | .vnone => true
  | _ => false

/-- Identity resolution as the claim states it: the value of the first of
`id`, `databaseId`, `zip` that is present and not `None`, or nothing when
no such key exists.  This definition follows the claim sentence, for
comparison against the source embedding `resolve_vector_id`. -/
def resolve_id_claim (m : List (String × PyVal)) : Option String :=
  match (m.find? (fun kv => kv.1 == "id")).map Prod.snd with
  | some v => if isNoneVal v then fallbackDb m else some (pyStr v)
  | none => fallbackDb m
where
  /-- Fallback to `databaseId`, then `zip`, under the same present-and-
  non-null rule. -/
  fallbackDb (m : List (String × PyVal)) : Option String :=
    match (m.find? (fun kv => kv.1 == "databaseId")).map Prod.snd with
    | some v => if isNoneVal v then fallbackZip m else some (pyStr v)
    | none => fallbackZip m
  /-- Last step of the fallback chain: the `zip` key. -/
  fallbackZip (m : List (String × PyVal)) : Option String :=
    match (m.find? (fun kv => kv.1 == "zip")).map Prod.snd with
    | some v => if isNoneVal v then none else some (pyStr v)
    | none => none

/-- Truthiness cascade that the source id expression actually implements:
first truthy value among `id`, `databaseId`, `zip` (each read with
`.get(key, None)`), with the `zip` read as the final operand. -/
def first_truthy_id (m : List (String × PyVal)) : PyVal :=
  if pyTruthy (dictGet m "id") then dictGet m "id"
  else if pyTruthy (dictGet m "databaseId") then dictGet m "databaseId"
  else dictGet m "zip"

/-- Vector prepared for the vector store: id, embedding values (floats
modelled as integers; no arithmetic is performed on them) and sanitized
metadata. -/
structure PyVector : Type where
  id : String
  values : List Int
  metadata : List (String × PyVal)

/-- Response body of the status endpoints. -/
structure StatusResponse : Type where
  status : String
  message : String

/-- Body of `POST /ingest` (`IngestRequest` in `src/app/models/request.py`):
optional location, an object type and one metadata record; the record is a
dict after `.dict()`. -/
structure IngestRequest : Type where
  location_id : Option String
  type : ObjectType
  metadata : List (String × PyVal)

/-- Effects of one call of the `POST /ingest` handler `ingest_document`
(`src/app/api/ingest_routes.py`, lines 19-49): the response returned, the
vector and namespace it constructed, and the list of upsert calls it
issued to the vector store before responding. -/
structure IngestEffects : Type where
  response : StatusResponse
  vector : PyVector
  namespaceUsed : String
  upsertCalls : List (List PyVector × String)

/-- Embedding of the success path of `ingest_document`: text generation
and embedding are passed in as total functions (the exception path returns
a 500 and is not modelled — the claim quantifies over requests that return
a success response).  The source line 43,
`# pinecone_service.upsert(vectors=[vector],namespace=namespace)`,
is commented out, so the handler issues no upsert call at all and returns
the success response directly. -/
def ingest_document (genText : List (String × PyVal) → ObjectType → String)
    (embed : String → List Int) (req : IngestRequest) : IngestEffects :=
  let metadata := req.metadata
  let text := genText metadata req.type
  let embedding := embed text
  let vector : PyVector :=
    { id := resolve_vector_id metadata
      values := embedding
      metadata := sanitize_metadata (PyVal.vobj metadata) "" "_" }
  let ns := ingest_namespace req.type req.location_id
  { response := { status := "success", message := req.type.str ++ " ingested successfully" }
    vector := vector
    namespaceUsed := ns
    upsertCalls := [] }

/-- Match record as stored in a cache entry or returned by a namespace
query: the three fields the handler reads with `.get`. -/
structure MatchRec : Type where
  id : Option String
  metadata : Option PyVal
  score : Option Int

/-- Entry of a semantic cache response.  `response` models the stored
JSON string: `none` is a Python `None` or empty (falsy) string, and
`some l` is a non-empty JSON string that deserializes to the match list
`l`. -/
structure CacheEntry : Type where
  response : Option (List MatchRec)

/-- Result object of a cache search: carries a list of entries. -/
structure CachedSearch : Type where
  data : List CacheEntry

/-- Body of `POST /search` (`SearchRequest` in
`src/app/models/request.py`). -/
structure SearchRequest : Type where
  query : String
  top_k : Nat
  location_id : Option String
  reqNamespace : ObjectType

/-- `SearchMatch` of the response model: the handler builds it from a
match record, leaving `values` at its empty default. -/
structure SearchMatch : Type where
  id : Option String
  metadata : Option PyVal
  score : Option Int
  values : List Int

/-- Response body of `POST /search`. -/
structure SearchResponse : Type where
  results : List SearchMatch
  query_rewritten : Option String
  total_results : Nat

/-- Effects of one call of the `POST /search` handler: whether the
embedding service was invoked, which namespaces were queried on the
vector store (in order), whether a background cache write was scheduled,
and the response returned. -/
structure SearchEffects : Type where
  embedCalled : Bool
  queriedNamespaces : List String
  cacheSetScheduled : Bool
  response : SearchResponse

/-- Conversion from a match record to a `SearchMatch`, as done on both the
cache-hit path (lines 43-49) and the miss path (lines 79-87) of
`search_documents`. -/
def toSearchMatch (m : MatchRec) : SearchMatch :=
  { id := m.id, metadata := m.metadata, score := m.score, values := [] }

/-- Hit test of the handler, mirroring
`cached_results and cached_results.data and cached_results.data[0].response`:
the stored match list when the cache returned an object with a non-empty
`data` whose first entry has a truthy response, nothing otherwise. -/
def cacheHit (cached : Option CachedSearch) : Option (List MatchRec) :=
  match cached with
  | some c =>
    match c.data with
    | e :: _ => e.response
    | [] => none
  | none => none

/-- Namespaces the request fans out to (line 27 of the source): the single
requested namespace, or products, blogs and stores when the request says
`all`. -/
def query_namespaces (req : SearchRequest) : List ObjectType :=
  if req.reqNamespace ≠ ObjectType.all then [req.reqNamespace]
  else [ObjectType.products, ObjectType.blogs, ObjectType.stores]

/-- Miss path of `search_documents` (lines 57-97): embed the query once,
query every target namespace (the `asyncio.gather` preserves the task
order, so the merged list is the concatenation in namespace order),
convert to `SearchMatch`es and schedule a background cache write. -/
def search_miss (req : SearchRequest) (embed : String → List Int)
    (pineconeQuery : List Int → Nat → String → List MatchRec) : SearchEffects :=
  let queryEmbedding := embed req.query
  let nss := (query_namespaces req).map (fun ns => search_namespace ns req.location_id)
  let allResults := (nss.map (fun s => pineconeQuery queryEmbedding req.top_k s)).flatten
  let matchList := allResults.map toSearchMatch
  { embedCalled := true
    queriedNamespaces := nss
    cacheSetScheduled := true
    response := { results := matchList, query_rewritten := none, total_results := matchList.length } }

/-- Embedding of the `POST /search` handler `search_documents`
(`src/app/api/search_routes.py`, lines 16-99).  The cache result, the
embedding service and the vector store are passed in as parameters; the
cache-hit branch (lines 38-55) builds `SearchMatch`es from the
deserialized stored list and returns them without touching either
service. -/
def search_documents (req : SearchRequest) (cached : Option CachedSearch)
    (embed : String → List Int)
    (pineconeQuery : List Int → Nat → String → List MatchRec) : SearchEffects :=
  match cacheHit cached with
  | some stored =>
    let cachedMatches := stored.map toSearchMatch
    { embedCalled := false
      queriedNamespaces := []
      cacheSetScheduled := false
      response :=
        { results := cachedMatches
          query_rewritten := none
          total_results := cachedMatches.length } }
  | none => search_miss req embed pineconeQuery

/-- Embedding of the consumer loop `batch_upsert` of
`src/app/api/ingest_routes.py` (lines 96-117).  `pending` is the sequence
of vectors the producers successfully put on the queue, in queue order;
once it is exhausted every `get(timeout=1)` raises `queue.Empty` (the
producers have finished).  `fuel` counts loop iterations; the result is
the list of batches flushed to the vector store paired with `true` when
the loop exited, and `false` when the fuel ran out with the loop still
running.  The loop keeps `total_processed`, counting only dequeued
vectors, and flushes when the accumulator reaches the batch size of 100
or `total_processed` reaches the expected count `n`. -/
def batch_upsert_loop {α : Type} (pending : List α) (acc : List α)
    (totalProcessed n : Nat) (flushes : List (List α)) :
    Nat → List (List α) × Bool
  | 0 => (flushes, false)
  | fuel + 1 =>
    if totalProcessed < n then
      match pending with
      | v :: rest =>
        let acc' := acc ++ [v]
        let tp' := totalProcessed + 1
        if 100 ≤ acc'.length ∨ tp' = n then
          batch_upsert_loop rest [] tp' n (flushes ++ [acc']) fuel
        else
          batch_upsert_loop rest acc' tp' n flushes fuel
      | [] =>
        -- `queue.Empty`: the source re-checks `total_processed < len(metadata_list)`
        -- and continues; the `break` arm is unreachable because the outer
        -- condition already guaranteed `total_processed < n`.
        if totalProcessed < n then
          batch_upsert_loop [] acc totalProcessed n flushes fuel
        else (flushes, true)
    else (flushes, true)

/-- Embedding of Python `range(start, stop, step)` for a positive step. -/
def pyRange (start stop step : Nat) : List Nat :=
  if _h : 0 < step ∧ start < stop then start :: pyRange (start + step) stop step
  else []
termination_by stop - start
decreasing_by omega

/-- Loop of `PineconeService.upsert` (`src/app/services/pinecone_service.py`,
lines 40-46): the iteration indices come from `range(0, total_vectors,
batch_size)` built with the initial `batch_size = 100`, each step slices
`vectors[i:i + batch_size]` with the CURRENT `batch_size`, and then
reassigns `batch_size = len(batch)`. -/
def upsertGo {α : Type} (vectors : List α) :
    List Nat → Nat → List (List α)
  | [], _ => []
  | i :: rest, batchSize =>
    let batch := (vectors.drop i).take batchSize
    batch :: upsertGo vectors rest batch.length

/-- Embedding of `PineconeService.upsert`: the list of batches, one index
upsert call per element, and the reported `total_upserted`, which the
source sets to `len(vectors)` before the loop. -/
def pinecone_upsert {α : Type} (vectors : List α) : List (List α) × Nat :=
  (upsertGo vectors (pyRange 0 vectors.length 100) 100, vectors.length)

/-- State of the cache service: `client` mirrors `self.client`, present
after a successful connect (only its presence matters to the control
flow). -/
structure CacheService : Type where
  client : Option Unit

/-- Embedding of `CacheService.__init__` (`src/app/services/cache_service.py`,
lines 10-20): the `LangCache` connect result is passed in as an `Except`.
The `try`/`except` that would catch a connect failure and fall back to
`client = None` (lines 11 and 18-20) is commented out in the source, so a
connect failure propagates out of construction. -/
def cache_service_init (connect : Except String Unit) :
    Except String CacheService :=
  match connect with
  | .ok c => .ok { client := some c }
  | .error e => .error e

/-- Embedding of `CacheService.get` (lines 22-39): skip when there is no
client; otherwise the client search result is passed in as an `Except` of
an optional result object; a raise is caught and returned as `None`, a
result with empty `data` is a miss, anything else is returned. -/
def cache_get (svc : CacheService)
    (searchResult : Except String (Option CachedSearch)) : Option CachedSearch :=
  match svc.client with
  | none => none
  | some _ =>
    match searchResult with
    | .error _ => none
    | .ok value =>
      match value with
      | some v => if v.data.length != 0 then some v else none
      | none => none

/-- Embedding of `CacheService.set` (lines 41-56): skip with `False` when
there is no client; otherwise `True` on success and `False` when the
client set raises. -/
def cache_set (svc : CacheService) (setResult : Except String Unit) : Bool :=
  match svc.client with
  | none => false
  | some _ =>
    match setResult with
    | .ok _ => true
    | .error _ => false

/-! ## Helper lemmas -/

/-- Entries of `pySetKey d k v` come from `d` or are the pair `(k, v)`. -/
theorem mem_pySetKey {d : List (String × PyVal)} {k : String} {v : PyVal}
    {kv : String × PyVal} (h : kv ∈ pySetKey d k v) : kv ∈ d ∨ kv = (k, v) := by
  unfold pySetKey at h
  split at h
  · rcases List.mem_map.mp h with ⟨kv', hmem, heq⟩
    by_cases hk : kv'.1 = k
    · right
      rw [if_pos hk] at heq
      exact heq.symm
    · left
      rw [if_neg hk] at heq
      exact heq ▸ hmem
  · rcases List.mem_append.mp h with h1 | h1
    · exact Or.inl h1
    · exact Or.inr (List.mem_singleton.mp h1)

/-- Entries of `pyUpdate d add` come from `d` or from `add`. -/
theorem mem_pyUpdate {add d : List (String × PyVal)} {kv : String × PyVal}
    (h : kv ∈ pyUpdate d add) : kv ∈ d ∨ kv ∈ add := by
  induction add generalizing d with
  | nil => exact Or.inl h
  | cons hd tl ih =>
    obtain ⟨k, v⟩ := hd
    rcases ih h with h1 | h1
    · rcases mem_pySetKey h1 with h2 | h2
      · exact Or.inl h2
      · exact Or.inr (h2 ▸ List.mem_cons_self _ _)
    · exact Or.inr (List.mem_cons_of_mem _ h1)

/-- Entries of the dict loop of `sanitize_metadata` come from the
accumulator or from the sanitization of some entry of the dict under its
extended key. -/
theorem sanitizeObj_mem {kvs : List (String × PyVal)} {parentKey sep : String}
    {items : List (String × PyVal)} {kv : String × PyVal}
    (h : kv ∈ sanitizeObj kvs parentKey sep items) :
    kv ∈ items ∨ ∃ k v, (k, v) ∈ kvs ∧
      kv ∈ sanitize_metadata v (extendKey parentKey sep (Seg.key k)) sep := by
  induction kvs generalizing items with
  | nil => exact Or.inl h
  | cons hd tl ih =>
    obtain ⟨k, v⟩ := hd
    rcases ih h with h1 | h1
    · rcases mem_pyUpdate h1 with h2 | h2
      · exact Or.inl h2
      · exact Or.inr ⟨k, v, List.mem_cons_self _ _, h2⟩
    · rcases h1 with ⟨k', v', hmem, hkv⟩
      exact Or.inr ⟨k', v', List.mem_cons_of_mem _ hmem, hkv⟩

/-- Entries of the list loop of `sanitize_metadata` come from the
accumulator or from the sanitization of some element of the list under
its indexed key. -/
theorem sanitizeList_mem {xs : List PyVal} {i : Nat} {parentKey sep : String}
    {items : List (String × PyVal)} {kv : String × PyVal}
    (h : kv ∈ sanitizeList xs i parentKey sep items) :
    kv ∈ items ∨ ∃ j v, xs.get? j = some v ∧
      kv ∈ sanitize_metadata v (extendKey parentKey sep (Seg.idx (i + j))) sep := by
  induction xs generalizing i items with
  | nil => exact Or.inl h
  | cons hd tl ih =>
    rcases ih h with h1 | h1
    · rcases mem_pyUpdate h1 with h2 | h2
      · exact Or.inl h2
      · exact Or.inr ⟨0, hd, rfl, h2⟩
    · rcases h1 with ⟨j, v, hget, hkv⟩
      refine Or.inr ⟨j + 1, v, hget, ?_⟩
      have : i + (j + 1) = i + 1 + j := by omega
      rw [this]
      exact hkv

/-- Member values of a dict model are smaller than the dict node. -/
theorem sizeOf_lt_of_mem_obj {k : String} {v : PyVal}
    {kvs : List (String × PyVal)} (h : (k, v) ∈ kvs) :
    sizeOf v < sizeOf (PyVal.vobj kvs) := by
  have h1 := List.sizeOf_lt_of_mem h
  simp only [Prod.mk.sizeOf_spec] at h1
  simp only [PyVal.vobj.sizeOf_spec]
  omega

/-- Elements of a list model are smaller than the list node. -/
theorem sizeOf_lt_of_mem_vlist {v : PyVal} {xs : List PyVal} (h : v ∈ xs) :
    sizeOf v < sizeOf (PyVal.vlist xs) := by
  have h1 := List.sizeOf_lt_of_mem h
  simp only [PyVal.vlist.sizeOf_spec]
  omega

/-- Size of any `PyVal` node is positive. -/
theorem PyVal.sizeOf_pos (v : PyVal) : 0 < sizeOf v := by
  cases v <;> simp

/-- Bounded-depth version of the sanitization entry property, by strong
induction on the size of the value. -/
theorem sanitize_mem_clean_path_aux :
    ∀ (n : Nat) (v : PyVal), sizeOf v ≤ n → ∀ (parentKey sep : String)
      (kv : String × PyVal), kv ∈ sanitize_metadata v parentKey sep →
    isCleanVal kv.2 = true ∧
      ∃ path, kv.1 = joinPath parentKey sep path ∧ leadsTo v path kv.2 := by
  intro n
  induction n with
  | zero =>
    intro v hv
    have := PyVal.sizeOf_pos v
    omega
  | succ n ih =>
    intro v hv parentKey sep kv h
    cases v with
    | vnone => cases h
    | vbool b =>
      rcases List.mem_singleton.mp h with rfl
      exact ⟨rfl, [], rfl, rfl⟩
    | vint m =>
      rcases List.mem_singleton.mp h with rfl
      exact ⟨rfl, [], rfl, rfl⟩
    | vstr s =>
      rcases List.mem_singleton.mp h with rfl
      exact ⟨rfl, [], rfl, rfl⟩
    | venum s =>
      rcases List.mem_singleton.mp h with rfl
      exact ⟨rfl, [], rfl, rfl⟩
    | vobj kvs =>
      rcases sanitizeObj_mem h with h1 | h1
      · cases h1
      · rcases h1 with ⟨k, v', hmem, hkv⟩
        have hlt : sizeOf v' < sizeOf (PyVal.vobj kvs) := sizeOf_lt_of_mem_obj hmem
        rcases ih v' (by omega) (extendKey parentKey sep (Seg.key k)) sep kv hkv with
          ⟨hclean, path, hkey, hleads⟩
        exact ⟨hclean, Seg.key k :: path, hkey, v', hmem, hleads⟩
    | vlist xs =>
      rcases sanitizeList_mem h with h1 | h1
      · cases h1
      · rcases h1 with ⟨j, v', hget, hkv⟩
        have hmemx : v' ∈ xs := List.get?_mem hget
        have hlt : sizeOf v' < sizeOf (PyVal.vlist xs) := sizeOf_lt_of_mem_vlist hmemx
        have hj : (0 : Nat) + j = j := by omega
        rw [hj] at hkv
        rcases ih v' (by omega) (extendKey parentKey sep (Seg.idx j)) sep kv hkv with
          ⟨hclean, path, hkey, hleads⟩
        exact ⟨hclean, Seg.idx j :: path, hkey, v', hget, hleads⟩

/-- Every entry of sanitized metadata has a clean value (not `None`, not a
dict or list) and a key that joins an ancestor path of the input onto the
parent key in traversal order, reaching that very value. -/
theorem sanitize_mem_clean_path (v : PyVal) (parentKey sep : String)
    (kv : String × PyVal) (h : kv ∈ sanitize_metadata v parentKey sep) :
    isCleanVal kv.2 = true ∧
      ∃ path, kv.1 = joinPath parentKey sep path ∧ leadsTo v path kv.2 :=
  sanitize_mem_clean_path_aux (sizeOf v) v le_rfl parentKey sep kv h

/-- Setting a key preserves the no-duplicate-keys invariant of the dict
model. -/
theorem pySetKey_keys_nodup {d : List (String × PyVal)} {k : String}
    {v : PyVal} (h : (d.map Prod.fst).Nodup) :
    ((pySetKey d k v).map Prod.fst).Nodup := by
  by_cases hcase : hasKey d k = true
  · rw [pySetKey, if_pos hcase]
    have hf : (Prod.fst ∘ fun kv : String × PyVal =>
        if kv.1 = k then (k, v) else kv) = Prod.fst := by
      funext kv
      by_cases hk : kv.1 = k
      · simp [hk]
      · simp [hk]
    rw [List.map_map, hf]
    exact h
  · rw [pySetKey, if_neg hcase]
    have hk : k ∉ d.map Prod.fst := by
      intro hmem
      rcases List.mem_map.mp hmem with ⟨kv, hkv, hfst⟩
      exact hcase (List.any_eq_true.mpr ⟨kv, hkv, by simp [hfst]⟩)
    simp only [List.map_append, List.map_cons, List.map_nil]
    rw [List.nodup_append]
    refine ⟨h, List.nodup_singleton k, ?_⟩
    intro a ha hak
    rw [List.mem_singleton] at hak
    exact hk (hak ▸ ha)

/-- Python `dict.update` preserves the no-duplicate-keys invariant. -/
theorem pyUpdate_keys_nodup {add d : List (String × PyVal)}
    (h : (d.map Prod.fst).Nodup) : ((pyUpdate d add).map Prod.fst).Nodup := by
  induction add generalizing d with
  | nil => exact h
  | cons hd tl ih =>
    obtain ⟨k, v⟩ := hd
    exact ih (pySetKey_keys_nodup h)

/-- Keys of the dict loop of `sanitize_metadata` stay duplicate-free. -/
theorem sanitizeObj_keys_nodup {kvs : List (String × PyVal)}
    {parentKey sep : String} {items : List (String × PyVal)}
    (h : (items.map Prod.fst).Nodup) :
    ((sanitizeObj kvs parentKey sep items).map Prod.fst).Nodup := by
  induction kvs generalizing items with
  | nil => exact h
  | cons hd tl ih =>
    obtain ⟨k, v⟩ := hd
    exact ih (pyUpdate_keys_nodup h)

/-- Keys of the list loop of `sanitize_metadata` stay duplicate-free. -/
theorem sanitizeList_keys_nodup {xs : List PyVal} {i : Nat}
    {parentKey sep : String} {items : List (String × PyVal)}
    (h : (items.map Prod.fst).Nodup) :
    ((sanitizeList xs i parentKey sep items).map Prod.fst).Nodup := by
  induction xs generalizing i items with
  | nil => exact h
  | cons hd tl ih => exact ih (pyUpdate_keys_nodup h)

/-- Sanitized metadata never has two entries with the same key — it is a
well-formed Python dict. -/
theorem sanitize_keys_nodup (v : PyVal) (parentKey sep : String) :
    ((sanitize_metadata v parentKey sep).map Prod.fst).Nodup := by
  cases v with
  | vnone => simp [sanitize_metadata]
  | vobj kvs => exact sanitizeObj_keys_nodup (by simp)
  | vlist xs => exact sanitizeList_keys_nodup (by simp)
  | vbool b => simp [sanitize_metadata]
  | vint n => simp [sanitize_metadata]
  | vstr s => simp [sanitize_metadata]
  | venum s => simp [sanitize_metadata]

/-- Values of sanitized metadata are always clean. -/
theorem sanitize_out_clean (v : PyVal) (parentKey sep : String) :
    ∀ kv ∈ sanitize_metadata v parentKey sep, isCleanVal kv.2 = true :=
  fun kv h => (sanitize_mem_clean_path v parentKey sep kv h).1

/-- Sanitizing a clean scalar yields the single entry under the given
key. -/
theorem sanitize_clean_single {v : PyVal} (h : isCleanVal v = true)
    (parentKey sep : String) :
    sanitize_metadata v parentKey sep = [(parentKey, v)] := by
  cases v with
  | vnone => cases h
  | vlist xs => cases h
  | vobj kvs => cases h
  | vbool b => rfl
  | vint n => rfl
  | vstr s => rfl
  | venum s => rfl

/-- Setting a fresh key appends the pair. -/
theorem pySetKey_fresh {d : List (String × PyVal)} {k : String} {v : PyVal}
    (h : k ∉ d.map Prod.fst) : pySetKey d k v = d ++ [(k, v)] := by
  rw [pySetKey, if_neg]
  intro hany
  rcases List.any_eq_true.mp hany with ⟨kv, hkv, hbeq⟩
  exact h (List.mem_map.mpr ⟨kv, hkv, by simpa using hbeq⟩)

/-- On a flat dict of clean scalars with fresh keys, the dict loop of
`sanitize_metadata` with empty parent key just appends the input to the
accumulator. -/
theorem sanitizeObj_flat (kvs : List (String × PyVal)) (sep : String) :
    ∀ items : List (String × PyVal),
      ((items.map Prod.fst) ++ (kvs.map Prod.fst)).Nodup →
      (∀ kv ∈ kvs, isCleanVal kv.2 = true) →
      sanitizeObj kvs "" sep items = items ++ kvs := by
  induction kvs with
  | nil => intro items _ _; simp [sanitizeObj]
  | cons hd tl ih =>
    obtain ⟨k, v⟩ := hd
    intro items hnodup hclean
    have hkfresh : k ∉ items.map Prod.fst := by
      rw [List.nodup_append] at hnodup
      exact fun hmem => hnodup.2.2 hmem (by simp)
    have hstep : sanitizeObj ((k, v) :: tl) "" sep items =
        sanitizeObj tl "" sep (pyUpdate items (sanitize_metadata v k sep)) := by
      simp [sanitizeObj]
    rw [hstep, sanitize_clean_single (hclean (k, v) (List.mem_cons_self _ _)) k sep]
    have hupd : pyUpdate items [(k, v)] = items ++ [(k, v)] := pySetKey_fresh hkfresh
    rw [show pyUpdate items [(k, v)] = pyUpdate (pySetKey items k v) [] from rfl] at hupd
    simp only [pyUpdate] at hupd ⊢
    rw [hupd, ih (items ++ [(k, v)]) ?hnodup ?hclean, List.append_assoc]
    · rfl
    case hnodup =>
      have : (items ++ [(k, v)]).map Prod.fst ++ tl.map Prod.fst =
          items.map Prod.fst ++ ((k, v) :: tl).map Prod.fst := by
        simp
      rw [this]
      exact hnodup
    case hclean =>
      exact fun kv hkv => hclean kv (List.mem_cons_of_mem _ hkv)

/-- Sanitizing an already-flat dict of clean scalars is a no-op. -/
theorem sanitize_flat_identity (kvs : List (String × PyVal)) (sep : String)
    (h1 : (kvs.map Prod.fst).Nodup)
    (h2 : ∀ kv ∈ kvs, isCleanVal kv.2 = true) :
    sanitize_metadata (PyVal.vobj kvs) "" sep = kvs := by
  have := sanitizeObj_flat kvs sep [] (by simpa) h2
  simpa [sanitize_metadata] using this

/-- Once the queue is drained while `total_processed` is still below the
expected count, the consumer loop makes no further progress: every poll
times out and the loop re-enters the same state, for any amount of
fuel. -/
theorem batch_loop_stuck {α : Type} (acc : List α) (tp n : Nat)
    (flushes : List (List α)) (h : tp < n) :
    ∀ fuel, batch_upsert_loop ([] : List α) acc tp n flushes fuel = (flushes, false) := by
  intro fuel
  induction fuel with
  | zero => rfl
  | succ k ih =>
    show (if tp < n then
        (if tp < n then batch_upsert_loop ([] : List α) acc tp n flushes k
         else (flushes, true))
      else (flushes, true)) = (flushes, false)
    rw [if_pos h, if_pos h]
    exact ih

/-- Flattening the batches produced from the index list `range(i, N, 100)`
returns exactly the elements of `vectors` from position `i` on.  The
running `batch_size` is 100 at every index of the range: it only shrinks
at the final chunk, after which there is no further iteration. -/
theorem upsertGo_flatten {α : Type} (vectors : List α) (i : Nat) :
    (upsertGo vectors (pyRange i vectors.length 100) 100).flatten =
      vectors.drop i := by
  by_cases h : i < vectors.length
  · rw [pyRange, dif_pos ⟨by omega, h⟩]
    by_cases h2 : vectors.length ≤ i + 100
    · have hnil : pyRange (i + 100) vectors.length 100 = [] := by
        rw [pyRange, dif_neg]
        omega
      rw [hnil]
      show ((vectors.drop i).take 100 :: []).flatten = vectors.drop i
      rw [List.flatten_cons, List.flatten_nil, List.append_nil]
      apply List.take_of_length_le
      simp only [List.length_drop]
      omega
    · have hlen : ((vectors.drop i).take 100).length = 100 := by
        simp only [List.length_take, List.length_drop]
        omega
      show ((vectors.drop i).take 100 ::
        upsertGo vectors (pyRange (i + 100) vectors.length 100)
          ((vectors.drop i).take 100).length).flatten = vectors.drop i
      rw [hlen, List.flatten_cons, upsertGo_flatten vectors (i + 100),
        List.drop_take_append_drop]
  · rw [pyRange, dif_neg (by omega)]
    show ([] : List (List α)).flatten = vectors.drop i
    rw [List.flatten_nil, List.drop_eq_nil_of_le]
    omega
termination_by vectors.length - i
decreasing_by omega

/-- Every batch produced by the upsert loop is no longer than the incoming
batch size bound. -/
theorem upsertGo_length_le {α : Type} (vectors : List α) :
    ∀ (idxs : List Nat) (bs : Nat), bs ≤ 100 →
      ∀ b ∈ upsertGo vectors idxs bs, b.length ≤ 100 := by
  intro idxs
  induction idxs with
  | nil => intro bs _ b hb; cases hb
  | cons i rest ih =>
    intro bs hbs b hb
    have hbatch : ((vectors.drop i).take bs).length ≤ bs := by
      rw [List.length_take]
      exact min_le_left _ _
    rcases List.mem_cons.mp hb with rfl | hb2
    · omega
    · exact ih _ (le_trans hbatch hbs) b hb2

/-! ## Claim theorems -/

/-- C1: the namespace router diverges between the ingest and the search
path when `location_id` is absent: the ingest path computes
`"orphan-products"` (`location_id or 'orphan'`) while the search path
renders the missing location directly into the f-string and queries
`"None-products"`, so a product ingested with no `location_id` is NOT
queried in the namespace it was written to.  For blogs and stores both
paths agree on the type literal. -/
theorem namespace_routing_ingest_search_divergence :
    ingest_namespace ObjectType.products none = "orphan-products" ∧
    search_namespace ObjectType.products none = "None-products" ∧
    ingest_namespace ObjectType.products none ≠ search_namespace ObjectType.products none ∧
    ingest_namespace ObjectType.blogs none = search_namespace ObjectType.blogs none ∧
    ingest_namespace ObjectType.stores none = search_namespace ObjectType.stores none := by
  refine ⟨rfl, rfl, ?_, rfl, rfl⟩
  decide

/-- C2: with N = 2 expected records of which K = 1 fails embedding (so
exactly one vector ever reaches the queue), the consumer loop never
terminates and never flushes anything: `total_processed` counts only
dequeued vectors, sticks at 1 < 2, and the timeout branch loops forever,
so the one produced vector is never upserted — contradicting the claim
that the loop terminates with exactly N−K vectors upserted. -/
theorem batch_consumer_never_terminates_on_failure (fuel : Nat) :
    batch_upsert_loop [(0 : Nat)] [] 0 2 [] fuel = ([], false) := by
  cases fuel with
  | zero => rfl
  | succ k =>
    show batch_upsert_loop ([] : List Nat) [0] 1 2 [] k = ([], false)
    exact batch_loop_stuck [0] 1 2 [] (by omega) k

/-- C3: the `POST /ingest` handler returns the success response without
ever calling the vector store upsert: the call on line 43 of
`src/app/api/ingest_routes.py` is commented out, so for every request the
list of issued upsert calls is empty even though the response says
success — contradicting the claim that the constructed vector is
upserted in the routed namespace before the response is returned. -/
theorem ingest_returns_success_without_upsert
    (genText : List (String × PyVal) → ObjectType → String)
    (embed : String → List Int) (req : IngestRequest) :
    (ingest_document genText embed req).upsertCalls = [] ∧
    (ingest_document genText embed req).response.status = "success" :=
  ⟨rfl, rfl⟩

/-- C4: on a similarity-threshold cache hit with a non-empty stored
response, the handler returns exactly the deserialized stored match list
converted to `SearchMatch`es, with `total_results` equal to its length,
and neither the embedding service nor any vector store namespace query is
invoked. -/
theorem search_cache_hit_short_circuit (req : SearchRequest)
    (cached : Option CachedSearch) (embed : String → List Int)
    (pineconeQuery : List Int → Nat → String → List MatchRec)
    (stored : List MatchRec) (h : cacheHit cached = some stored) :
    (search_documents req cached embed pineconeQuery).embedCalled = false ∧
    (search_documents req cached embed pineconeQuery).queriedNamespaces = [] ∧
    (search_documents req cached embed pineconeQuery).response.results =
      stored.map toSearchMatch ∧
    (search_documents req cached embed pineconeQuery).response.total_results =
      stored.length := by
  unfold search_documents
  rw [h]
  exact ⟨rfl, rfl, rfl, by simp⟩

/-- Witness for C4 at a concrete request and a concrete cache hit holding
one stored match. -/
theorem search_cache_hit_short_circuit_witness :
    (cacheHit (some ⟨[⟨some [⟨some "p1", none, some 1⟩]⟩]⟩) =
      some [⟨some "p1", none, some 1⟩]) ∧
    ((search_documents ⟨"red shoes", 5, none, ObjectType.products⟩
        (some ⟨[⟨some [⟨some "p1", none, some 1⟩]⟩]⟩)
        (fun _ => []) (fun _ _ _ => [])).embedCalled = false ∧
     (search_documents ⟨"red shoes", 5, none, ObjectType.products⟩
        (some ⟨[⟨some [⟨some "p1", none, some 1⟩]⟩]⟩)
        (fun _ => []) (fun _ _ _ => [])).queriedNamespaces = [] ∧
     (search_documents ⟨"red shoes", 5, none, ObjectType.products⟩
        (some ⟨[⟨some [⟨some "p1", none, some 1⟩]⟩]⟩)
        (fun _ => []) (fun _ _ _ => [])).response.results =
       [⟨some "p1", none, some 1⟩].map toSearchMatch ∧
     (search_documents ⟨"red shoes", 5, none, ObjectType.products⟩
        (some ⟨[⟨some [⟨some "p1", none, some 1⟩]⟩]⟩)
        (fun _ => []) (fun _ _ _ => [])).response.total_results =
       ([⟨some "p1", none, some 1⟩] : List MatchRec).length) :=
  ⟨rfl, search_cache_hit_short_circuit _ _ _ _ _ rfl⟩

/-- C5: `collect_values` does not return the non-empty scalar leaves of a
record: the dict and list branches discard their recursive results, so on
the record `{"name": "Red Shoes"}` it returns the empty list while the
claimed collector returns `["Red Shoes"]`; moreover on a pure digit
string longer than 4 characters the bare `return` yields Python `None`
rather than a list. -/
theorem collect_values_discards_recursive_results :
    collect_values (PyVal.vobj [("name", PyVal.vstr "Red Shoes")]) = some [] ∧
    collect_values_spec (PyVal.vobj [("name", PyVal.vstr "Red Shoes")]) = ["Red Shoes"] ∧
    collect_values (PyVal.vobj [("name", PyVal.vstr "Red Shoes")]) ≠
      some (collect_values_spec (PyVal.vobj [("name", PyVal.vstr "Red Shoes")])) ∧
    collect_values (PyVal.vstr "123456") = none := by
  refine ⟨rfl, by decide, ?_, by decide⟩
  intro h
  rw [show collect_values (PyVal.vobj [("name", PyVal.vstr "Red Shoes")]) = some [] from rfl] at h
  rw [show collect_values_spec (PyVal.vobj [("name", PyVal.vstr "Red Shoes")]) = ["Red Shoes"] from by decide] at h
  cases h

/-- C6: sanitized metadata is a flat well-formed map: its keys carry no
duplicates, and every entry has a non-null scalar value (no nested dict
or list) under a key obtained by joining the ancestor keys and list
indices of some leaf of the input with the separator, in traversal
order. -/
theorem sanitize_metadata_flat_clean (v : PyVal) :
    ((sanitize_metadata v "" "_").map Prod.fst).Nodup ∧
    ∀ kv ∈ sanitize_metadata v "" "_",
      isCleanVal kv.2 = true ∧
        ∃ path, kv.1 = joinPath "" "_" path ∧ leadsTo v path kv.2 :=
  ⟨sanitize_keys_nodup v "" "_",
   fun kv h => sanitize_mem_clean_path v "" "_" kv h⟩

/-- Witness for C6 at a concrete nested record: the entry `("a_b", 1)` of
the sanitized output is clean and reachable along an ancestor path. -/
theorem sanitize_metadata_flat_clean_witness :
    (("a_b", PyVal.vint 1) ∈
      sanitize_metadata
        (PyVal.vobj [("a", PyVal.vobj [("b", PyVal.vint 1), ("c", PyVal.vnone)])]) "" "_") ∧
    (isCleanVal (PyVal.vint 1) = true ∧
      ∃ path, "a_b" = joinPath "" "_" path ∧
        leadsTo (PyVal.vobj [("a", PyVal.vobj [("b", PyVal.vint 1), ("c", PyVal.vnone)])])
          path (PyVal.vint 1)) :=
  ⟨List.mem_cons_self _ _,
   (sanitize_metadata_flat_clean
      (PyVal.vobj [("a", PyVal.vobj [("b", PyVal.vint 1), ("c", PyVal.vnone)])])).2
     ("a_b", PyVal.vint 1) (List.mem_cons_self _ _)⟩

/-- C7: `sanitize_metadata` is a no-op on a flat dict whose values are all
non-null scalars, and is idempotent on arbitrary input: re-sanitizing its
own (flat, duplicate-free, clean-valued) output returns it unchanged. -/
theorem sanitize_metadata_idempotent (kvs : List (String × PyVal)) (x : PyVal)
    (h1 : (kvs.map Prod.fst).Nodup)
    (h2 : kvs.all (fun kv => isCleanVal kv.2) = true) :
    sanitize_metadata (PyVal.vobj kvs) "" "_" = kvs ∧
    sanitize_metadata (PyVal.vobj (sanitize_metadata x "" "_")) "" "_" =
      sanitize_metadata x "" "_" := by
  constructor
  · exact sanitize_flat_identity kvs "_" h1
      (fun kv hkv => by
        have := List.all_eq_true.mp h2 kv hkv
        simpa using this)
  · exact sanitize_flat_identity _ "_" (sanitize_keys_nodup x "" "_")
      (sanitize_out_clean x "" "_")

/-- Witness for C7 at a concrete flat dict and a concrete nested value. -/
theorem sanitize_metadata_idempotent_witness :
    (([("a", PyVal.vint 1), ("b", PyVal.vstr "x")].map Prod.fst).Nodup ∧
     ([("a", PyVal.vint 1), ("b", PyVal.vstr "x")].all
        (fun kv => isCleanVal kv.2) = true) ∧
     sanitize_metadata (PyVal.vobj [("a", PyVal.vint 1), ("b", PyVal.vstr "x")]) "" "_" =
       [("a", PyVal.vint 1), ("b", PyVal.vstr "x")] ∧
     sanitize_metadata
        (PyVal.vobj (sanitize_metadata
          (PyVal.vobj [("a", PyVal.vobj [("b", PyVal.vint 1)])]) "" "_")) "" "_" =
       sanitize_metadata (PyVal.vobj [("a", PyVal.vobj [("b", PyVal.vint 1)])]) "" "_") := by
  refine ⟨by decide, by decide, ?_⟩
  have h := sanitize_metadata_idempotent
    [("a", PyVal.vint 1), ("b", PyVal.vstr "x")]
    (PyVal.vobj [("a", PyVal.vobj [("b", PyVal.vint 1)])])
    (by decide) (by decide)
  exact ⟨h.1, h.2⟩

/-- C8 counterexample: the source resolves the vector id with Python `or`,
which skips falsy values rather than absent/null ones: with
`{"id": 0, "databaseId": 7}` the code takes `"7"`, while the claimed
present-and-non-null priority rule would take `"0"`; and with no identity
key at all the code produces the string `"None"`. -/
theorem vector_id_skips_falsy_id :
    resolve_vector_id [("id", PyVal.vint 0), ("databaseId", PyVal.vint 7)] = "7" ∧
    resolve_id_claim [("id", PyVal.vint 0), ("databaseId", PyVal.vint 7)] = some "0" ∧
    ("7" : String) ≠ "0" ∧
    resolve_vector_id [] = "None" := by
  refine ⟨by decide, by decide, by decide, by decide⟩

/-- C8 amended: the vector id is the string form of the first TRUTHY value
among `id`, `databaseId`, `zip` (a present but falsy value such as `0` or
`""` is skipped), and when none of the three is truthy the id is the
string of the final `zip` lookup — `"None"` when `zip` is absent or
null. -/
theorem vector_id_first_truthy (m : List (String × PyVal)) :
    resolve_vector_id m = pyStr (first_truthy_id m) ∧
    (pyTruthy (dictGet m "id") = true →
      resolve_vector_id m = pyStr (dictGet m "id")) ∧
    (pyTruthy (dictGet m "id") = false →
      pyTruthy (dictGet m "databaseId") = false →
      resolve_vector_id m = pyStr (dictGet m "zip")) := by
  refine ⟨?_, ?_, ?_⟩
  · unfold resolve_vector_id first_truthy_id pyOr
    by_cases h1 : pyTruthy (dictGet m "id") = true
    · rw [if_pos h1]
    · rw [if_neg h1]
  · intro h1
    unfold resolve_vector_id pyOr
    rw [if_pos h1]
  · intro h1 h2
    unfold resolve_vector_id pyOr
    rw [if_neg (by simp [h1]), if_neg (by simp [h2])]

/-- Witness for C8 amended at a concrete record with a truthy `id`. -/
theorem vector_id_first_truthy_witness :
    (pyTruthy (dictGet [("id", PyVal.vstr "p1")] "id") = true) ∧
    resolve_vector_id [("id", PyVal.vstr "p1")] =
      pyStr (dictGet [("id", PyVal.vstr "p1")] "id") :=
  ⟨by decide, (vector_id_first_truthy [("id", PyVal.vstr "p1")]).2.1 (by decide)⟩

/-- C9 counterexample: a cache connect failure does NOT degrade to a
no-op service — the `try`/`except` around the `LangCache` construction is
commented out in the source, so the error propagates out of
`CacheService.__init__` and no service is constructed. -/
theorem cache_connect_failure_propagates :
    cache_service_init (Except.error "connection refused") =
      Except.error "connection refused" ∧
    ¬ ∃ svc : CacheService,
        cache_service_init (Except.error "connection refused") = Except.ok svc :=
  ⟨rfl, fun ⟨_, h⟩ => Except.noConfusion h⟩

/-- C9 amended: cache search and set failures degrade rather than
propagate — a raising `client.search` makes `get` return `None` (a miss)
and a raising `client.set` makes `set` return `False` — but a connect
failure propagates out of `CacheService` construction instead of
degrading to a no-op. -/
theorem cache_get_set_degrade (svc : CacheService) (e : String) :
    cache_get svc (Except.error e) = none ∧
    cache_set svc (Except.error e) = false ∧
    cache_service_init (Except.error e) = Except.error e := by
  obtain ⟨client⟩ := svc
  cases client <;> exact ⟨rfl, rfl, rfl⟩

/-- C10: `PineconeService.upsert` partitions its input into consecutive
batches of at most 100 vectors — flattening the issued batches in order
restores the input exactly, so every vector is sent exactly once and
order is preserved across batch boundaries — and reports
`total_upserted` equal to the input length, including when the final
batch is smaller than 100. -/
theorem pinecone_upsert_batches_partition {α : Type} (vectors : List α) :
    ((pinecone_upsert vectors).1).flatten = vectors ∧
    ((pinecone_upsert vectors).1).all (fun b => b.length ≤ 100) = true ∧
    (pinecone_upsert vectors).2 = vectors.length := by
  refine ⟨?_, ?_, rfl⟩
  · have h := upsertGo_flatten vectors 0
    simpa using h
  · rw [List.all_eq_true]
    intro b hb
    simpa using upsertGo_length_le vectors _ 100 le_rfl b hb
